import Mathlib

/-!
Verification of the partitioned build orchestration layer of `elbow`
(`src/elbow/builders.py`): configuration validation, output directory
disposition, worker dispatch, per-worker source filtering (incremental and
hash partitioning), partition path naming, and atomic commit behavior.

Collaborators that live outside `src/elbow/builders.py` (the hash
partition predicate, the file-modification index, the extraction pipeline,
the atomic file open, and the cpu count) are modelled from the spec, each
marked as such in its doc comment.
-/

namespace Elbow

/-! ## Collaborators modelled from the spec -/

/-- Modelled from the spec: `hash_partitioner` from `elbow.filters` is not under
`src`; per the spec it is "a deterministic partition predicate parameterized by
`(worker_id, workers)`, keeping only items whose deterministic hash of their
identifier, modulo `workers`, equals `worker_id`". The hash function is a
parameter. -/
def hash_partitioner {α : Type} (hash : α → Nat) (worker_id workers : Nat)
    (x : α) : Bool :=
  hash x % workers == worker_id

/-- Modelled from the spec: `FileModifiedIndex` from `elbow.filters` is not
under `src`; per the spec the incremental filter keeps "only entries that are
new or whose current modification time is newer than recorded". `recorded`
is the index's recorded modification time per identifier (`none` = new), and
`mtime` is the identifier's current modification time. -/
def fileModIndexKeep {α : Type} (recorded : α → Option Nat) (mtime : α → Nat)
    (x : α) : Bool :=
  match recorded x with
  | none => true
  | some t => t < mtime x

/-- Run counts returned by one worker's completed run. -/
structure RunCounts where
  total : Nat
  succeeded : Nat
  failed : Nat
deriving Repr, DecidableEq

/-- Modelled from the spec: the execution-loop collaborator `Pipeline` from
`elbow.pipeline` is not under `src`; per the spec, for each input it invokes
extraction; on failure it increments a failure counter; `max_failures = some n`
tolerates up to `n` failures and exceeding `n` aborts (so `some 0` aborts on
the first failure); `max_failures = none` tolerates all failures. `none`
result means the run aborted before commit. -/
def pipelineRun {α : Type} (extractOk : α → Bool) (max_failures : Option Nat) :
    List α → Nat → Nat → Nat → Option RunCounts
  | [], total, succ, failed => some ⟨total, succ, failed⟩
  | x :: xs, total, succ, failed =>
    if extractOk x then
      pipelineRun extractOk max_failures xs (total + 1) (succ + 1) failed
    else
      match max_failures with
      | some n =>
        if failed + 1 > n then none
        else pipelineRun extractOk max_failures xs (total + 1) succ (failed + 1)
      | none => pipelineRun extractOk max_failures xs (total + 1) succ (failed + 1)

/-! ## Partition worker (`_build_parquet_worker`) -/

/-- The source sequence a worker actually processes, from
`_build_parquet_worker`: first the incremental filter (only when `incremental`
and the output directory exists), then the hash partition filter (only when
`workers > 1`). -/
def workerSource {α : Type} (incremental outputExists : Bool)
    (recorded : α → Option Nat) (mtime : α → Nat) (hash : α → Nat)
    (worker_id workers : Nat) (source : List α) : List α :=
  let s1 := if incremental && outputExists then
      source.filter (fileModIndexKeep recorded mtime)
    else source
  if workers > 1 then s1.filter (hash_partitioner hash worker_id workers) else s1

/-- Python `f"{n:04d}"` for a nonnegative `n`: left-pad the decimal digits
with zeros to width at least 4. -/
def pad4 (n : Nat) : String :=
  let s := toString n
  if s.length < 4 then String.mk (List.replicate (4 - s.length) '0') ++ s else s

/-- The partition file name computed in `_build_parquet_worker`:
`f"part-{start_fmt}-{worker_id:04d}-of-{workers:04d}.parquet"`. -/
def partFileName (startFmt : String) (worker_id workers : Nat) : String :=
  "part-" ++ startFmt ++ "-" ++ pad4 worker_id ++ "-of-" ++ pad4 workers ++ ".parquet"

/-- The spec's naming convention, written from the spec's words:
"`part-{YYYYMMDDHHMMSS}-{worker_id:04d}-of-{workers:04d}.<ext>`, placed
directly inside the output dataset directory" (the extension here being
`parquet`). -/
def specPartFileName (timestamp : String) (worker_id workers : Nat) : String :=
  "part-" ++ timestamp ++ "-" ++ pad4 worker_id ++ "-of-" ++ pad4 workers ++ ".parquet"

/-- Outcome of one worker run. -/
inductive WorkerOutcome where
  /-- `FileExistsError`: a file already exists at the computed partition path. -/
  | collision : WorkerOutcome
  /-- the pipeline aborted (failure budget exceeded); no commit. -/
  | aborted : WorkerOutcome
  /-- clean completion: the partition was published with these counts. -/
  | committed : RunCounts → WorkerOutcome
deriving Repr, DecidableEq

/-- Result of one worker run: the computed partition path, the outcome,
whether a file exists at the final partition path after the run, and whether
the output directory was created (`mkdir(parents=True, exist_ok=True)`). -/
structure WorkerResult where
  partPath : String
  outcome : WorkerOutcome
  finalPathExists : Bool
  madeDir : Bool
deriving Repr, DecidableEq

/-- `_build_parquet_worker` from `src/elbow/builders.py`: filter the source
(incremental filter, then hash partition filter), compute the partition path
from the run's start timestamp, fail on a pre-existing partition file, create
the output directory, then run the extraction pipeline through the atomic
writer. The atomic open (`atomicopen` from `elbow.utils`, not under `src`) is
modelled from the spec: "all writes target a temporary location invisible
under the final name; only a successful, fully-flushed completion
renames/publishes it to the final path", so the final path exists after the
run exactly when it existed before or the run committed. -/
def buildParquetWorker {α : Type} (worker_id : Nat)
    (source : List α) (extractOk : α → Bool) (outputDir : String)
    (incremental : Bool) (workers : Nat) (max_failures : Option Nat)
    (outputExists : Bool) (startFmt : String)
    (recorded : α → Option Nat) (mtime : α → Nat) (hash : α → Nat)
    (partPathExists : Bool) : WorkerResult :=
  let src := workerSource incremental outputExists recorded mtime hash
      worker_id workers source
  let path := outputDir ++ "/" ++ partFileName startFmt worker_id workers
  if partPathExists then
    { partPath := path, outcome := .collision, finalPathExists := true,
      madeDir := false }
  else
    match pipelineRun extractOk max_failures src 0 0 0 with
    | none =>
      { partPath := path, outcome := .aborted, finalPathExists := false,
        madeDir := true }
    | some c =>
      { partPath := path, outcome := .committed c, finalPathExists := true,
        madeDir := true }

/-! ## Build orchestrator (`build_parquet`) -/

/-- Errors raised by `build_parquet` before dispatch. -/
inductive BuildError where
  /-- `ValueError`: invalid `workers` (neither `-1` nor positive). -/
  | invalidWorkers : Int → BuildError
  /-- `ValueError`: `worker_id` outside `[0, workers)`. -/
  | invalidWorkerId : Int → BuildError
  /-- `ValueError`: `overwrite` combined with `worker_id`. -/
  | overwriteWithWorkerId : BuildError
  /-- `FileExistsError`: output already exists, not overwritable, not in place. -/
  | outputAlreadyExists : BuildError
deriving Repr, DecidableEq

/-- How `build_parquet` dispatches workers. -/
inductive Dispatch where
  /-- spawn one process per `worker_id` in `0..workers-1`. -/
  | parallel : Nat → Dispatch
  /-- run this single worker synchronously in the current process. -/
  | single : Nat → Dispatch
deriving Repr, DecidableEq

/-- The plan `build_parquet` arrives at when validation passes: the resolved
worker count, the dispatch mode, and whether the existing output directory
was recursively deleted (`shutil.rmtree`) before dispatch. -/
structure BuildPlan where
  workers : Nat
  dispatch : Dispatch
  deletedOutput : Bool
deriving Repr, DecidableEq

/-- The `workers` resolution at the top of `build_parquet`: `None` becomes 1,
`-1` becomes the host cpu count (`cpu_count` from `elbow.utils` is not under
`src` and is passed here as the parameter `cpuCount`), any other value `≤ 0`
raises `ValueError`. -/
def resolveWorkers (workersArg : Option Int) (cpuCount : Nat) :
    Except BuildError Int :=
  match workersArg with
  | none => .ok 1
  | some w =>
    if w == -1 then .ok (cpuCount : Int)
    else if w ≤ 0 then .error (.invalidWorkers w)
    else .ok w

/-- The `worker_id` validation in `build_parquet`: if given, it must satisfy
`0 <= worker_id < workers` and must not be combined with `overwrite`. -/
def checkWorkerId (worker_id : Option Int) (w : Int) (overwrite : Bool) :
    Except BuildError Unit :=
  match worker_id with
  | some wid =>
    if ¬(0 ≤ wid ∧ wid < w) then .error (.invalidWorkerId wid)
    else if overwrite then .error .overwriteWithWorkerId
    else .ok ()
  | none => .ok ()

/-- The dispatch mode chosen at the bottom of `build_parquet`: parallel pool
when `worker_id` is unset and `workers > 1`, the given single worker when
`worker_id` is set, otherwise worker 0 of 1 inline. -/
def chooseDispatch (w : Int) (worker_id : Option Int) : Dispatch :=
  match worker_id with
  | none => if w > 1 then .parallel w.toNat else .single 0
  | some wid => .single wid.toNat

/-- The prologue of `build_parquet` from `src/elbow/builders.py`: resolve
`workers`, validate `worker_id` and its interaction with `overwrite`, handle
output directory disposition (`inplace = incremental or worker_id is not
None`), and choose the dispatch mode. Errors are returned before any dispatch
happens. -/
def buildParquetPlan (workersArg : Option Int) (worker_id : Option Int)
    (incremental overwrite : Bool) (outputExists : Bool) (cpuCount : Nat) :
    Except BuildError BuildPlan :=
  match resolveWorkers workersArg cpuCount with
  | .error e => .error e
  | .ok w =>
    match checkWorkerId worker_id w overwrite with
    | .error e => .error e
    | .ok _ =>
      let inplace := incremental || worker_id.isSome
      if outputExists && !inplace then
        if overwrite then
          .ok { workers := w.toNat, dispatch := chooseDispatch w worker_id,
                deletedOutput := true }
        else .error .outputAlreadyExists
      else
        .ok { workers := w.toNat, dispatch := chooseDispatch w worker_id,
              deletedOutput := false }

/-- The dispatch phase of `build_parquet`, parameterized by each worker's
result (`.error e` when that worker raises). In parallel mode the
orchestrator submits workers `0..w-1` to the pool, waits for all, catches
each exception and logs a warning with the offending worker id; it returns
the list of logged worker ids and never propagates an error. In single mode
the worker runs synchronously and its error propagates. -/
def runDispatch {ε : Type} (d : Dispatch)
    (workerResult : Nat → Except ε RunCounts) : Except ε (List Nat) :=
  match d with
  | .parallel w =>
    .ok ((List.range w).filter fun i => !(workerResult i).toBool)
  | .single wid =>
    match workerResult wid with
    | .error e => .error e
    | .ok _ => .ok []

/-! ## Theorems -/

/-- Membership in a worker's filtered source, fully characterized. -/
theorem mem_workerSource {α : Type} (incremental outputExists : Bool)
    (recorded : α → Option Nat) (mtime : α → Nat) (hash : α → Nat)
    (wid W : Nat) (S : List α) (x : α) :
    x ∈ workerSource incremental outputExists recorded mtime hash wid W S ↔
      x ∈ S ∧ ((incremental && outputExists) = true →
          fileModIndexKeep recorded mtime x = true)
        ∧ (1 < W → hash x % W = wid) := by
  unfold workerSource
  by_cases hio : (incremental && outputExists) = true <;>
    by_cases hW : 1 < W
  all_goals simp [hio, hW, List.mem_filter, hash_partitioner, and_assoc]
  all_goals tauto

/-- C1: for fixed `workers = W > 1`, a fixed hash function, and a fixed source
`S`, the `W` filtered sources obtained by running the partition filter of
`_build_parquet_worker` with `worker_id = 0..W-1` are pairwise disjoint and
their union is `S`: every item of `S` is kept by exactly one worker. -/
theorem partition_filter_disjoint_and_complete {α : Type}
    (hash : α → Nat) (W : Nat) (hW : 1 < W)
    (recorded : α → Option Nat) (mtime : α → Nat) (S : List α) :
    (∀ i j, i < W → j < W → i ≠ j → ∀ x : α,
        x ∈ workerSource false false recorded mtime hash i W S →
        x ∉ workerSource false false recorded mtime hash j W S)
    ∧ (∀ x : α, x ∈ S ↔
        ∃ i, i < W ∧ x ∈ workerSource false false recorded mtime hash i W S) := by
  constructor
  · intro i j _ _ hij x hxi hxj
    rw [mem_workerSource] at hxi hxj
    exact hij ((hxi.2.2 hW).symm.trans (hxj.2.2 hW))
  · intro x
    constructor
    · intro hx
      refine ⟨hash x % W, Nat.mod_lt _ (Nat.lt_of_lt_of_le Nat.zero_lt_one hW.le), ?_⟩
      rw [mem_workerSource]
      exact ⟨hx, by simp, fun _ => rfl⟩
    · rintro ⟨i, _, hxi⟩
      exact ((mem_workerSource _ _ _ _ _ _ _ _ _).mp hxi).1

/-- Witness for C1 at `W = 2`, `hash = id`, `S = [0, 1, 2]`. -/
theorem partition_filter_disjoint_and_complete_witness :
    (1 : Nat) < 2 ∧
      ((1 : Nat) ∈ [0, 1, 2] ↔ ∃ i, i < 2 ∧
        (1 : Nat) ∈ workerSource false false (fun _ => none) (fun _ => 0) id i 2
          [0, 1, 2]) :=
  ⟨by decide,
    (partition_filter_disjoint_and_complete id 2 (by decide)
        (fun _ => none) (fun _ => 0) [0, 1, 2]).2 1⟩

/-- C7: a worker filters its source through the file-modification index if and
only if `incremental` is set and the output directory exists at the start of
its run; that filter keeps exactly the entries that are new or whose current
modification time is newer than the recorded one; and an item survives the
whole resolution exactly when it additionally lands in this worker's hash
partition (when `workers > 1`). -/
theorem worker_incremental_filtering {α : Type} (incremental outputExists : Bool)
    (recorded : α → Option Nat) (mtime : α → Nat) (hash : α → Nat)
    (wid W : Nat) (S : List α) (x : α) :
    (fileModIndexKeep recorded mtime x = true ↔
        recorded x = none ∨ ∃ t, recorded x = some t ∧ t < mtime x)
    ∧ (x ∈ workerSource incremental outputExists recorded mtime hash wid W S ↔
        x ∈ S ∧ ((incremental && outputExists) = true →
            fileModIndexKeep recorded mtime x = true)
          ∧ (1 < W → hash x % W = wid)) := by
  constructor
  · unfold fileModIndexKeep
    cases h : recorded x <;> simp [h]
  · exact mem_workerSource incremental outputExists recorded mtime hash wid W S x

/-- C2: a worker run that starts with no file at its computed partition path
publishes a file there exactly when the pipeline commits; in particular an
abort (for example a failure-budget overrun) leaves the final path absent. -/
theorem worker_abort_leaves_no_final_path {α : Type} (worker_id : Nat)
    (source : List α) (extractOk : α → Bool) (outputDir : String)
    (incremental : Bool) (workers : Nat) (max_failures : Option Nat)
    (outputExists : Bool) (startFmt : String) (recorded : α → Option Nat)
    (mtime : α → Nat) (hash : α → Nat) (partPathExists : Bool)
    (hpath : partPathExists = false) :
    (pipelineRun extractOk max_failures
        (workerSource incremental outputExists recorded mtime hash worker_id
          workers source) 0 0 0 = none →
      (buildParquetWorker worker_id source extractOk outputDir incremental
          workers max_failures outputExists startFmt recorded mtime hash
          partPathExists).finalPathExists = false)
    ∧ ((buildParquetWorker worker_id source extractOk outputDir incremental
          workers max_failures outputExists startFmt recorded mtime hash
          partPathExists).finalPathExists = true ↔
        ∃ c, (buildParquetWorker worker_id source extractOk outputDir
            incremental workers max_failures outputExists startFmt recorded
            mtime hash partPathExists).outcome = .committed c) := by
  subst hpath
  unfold buildParquetWorker
  cases h : pipelineRun extractOk max_failures
      (workerSource incremental outputExists recorded mtime hash worker_id
        workers source) 0 0 0 <;>
    simp [h]

/-- Witness for C2: `max_failures = 2` with 3 extraction failures aborts and
leaves the final partition path absent. -/
theorem worker_abort_leaves_no_final_path_witness :
    (buildParquetWorker 0 [1, 2, 3] (fun _ => false) "out" false 1 (some 2)
        false "20240101000000" (fun _ => none) (fun _ => (0 : Nat))
        (fun _ => 0) false).finalPathExists = false :=
  (worker_abort_leaves_no_final_path 0 [1, 2, 3] (fun _ => false) "out" false 1
      (some 2) false "20240101000000" (fun _ => none) (fun _ => (0 : Nat))
      (fun _ => 0) false rfl).1 (by decide)

/-- C9: a worker that starts with no file at its partition path and whose
filtered source is empty still completes cleanly: it creates the output
directory and publishes a partition with zero records at the computed path,
rather than skipping the write. -/
theorem empty_filtered_source_still_commits {α : Type} (worker_id : Nat)
    (source : List α) (extractOk : α → Bool) (outputDir : String)
    (incremental : Bool) (workers : Nat) (max_failures : Option Nat)
    (outputExists : Bool) (startFmt : String) (recorded : α → Option Nat)
    (mtime : α → Nat) (hash : α → Nat)
    (hempty : workerSource incremental outputExists recorded mtime hash
        worker_id workers source = []) :
    buildParquetWorker worker_id source extractOk outputDir incremental workers
        max_failures outputExists startFmt recorded mtime hash false =
      { partPath := outputDir ++ "/" ++ partFileName startFmt worker_id workers,
        outcome := .committed ⟨0, 0, 0⟩, finalPathExists := true,
        madeDir := true } := by
  unfold buildParquetWorker
  rw [hempty]
  rfl

/-- Witness for C9: the hash partition filter removes every item, yet the
worker commits an empty partition. -/
theorem empty_filtered_source_still_commits_witness :
    buildParquetWorker 0 [5] (fun _ => true) "out" false 2 (some 0) false
        "20240101000000" (fun _ => none) (fun _ => (0 : Nat)) (fun _ => 1)
        false =
      { partPath := "out/" ++ partFileName "20240101000000" 0 2,
        outcome := .committed ⟨0, 0, 0⟩, finalPathExists := true,
        madeDir := true } :=
  empty_filtered_source_still_commits 0 [5] (fun _ => true) "out" false 2
    (some 0) false "20240101000000" (fun _ => none) (fun _ => (0 : Nat))
    (fun _ => 1) (by decide)

/-- C3: every worker computes its output path as
`part-{timestamp}-{worker_id:04d}-of-{workers:04d}.parquet` directly inside
the output dataset directory (matching the spec's naming convention), and if
a file already exists at that exact path the worker fails with a collision
and never commits, leaving the pre-existing file in place. -/
theorem worker_path_naming_and_collision {α : Type} (worker_id : Nat)
    (source : List α) (extractOk : α → Bool) (outputDir : String)
    (incremental : Bool) (workers : Nat) (max_failures : Option Nat)
    (outputExists : Bool) (startFmt : String) (recorded : α → Option Nat)
    (mtime : α → Nat) (hash : α → Nat) (partPathExists : Bool) :
    (buildParquetWorker worker_id source extractOk outputDir incremental
        workers max_failures outputExists startFmt recorded mtime hash
        partPathExists).partPath
      = outputDir ++ "/" ++ specPartFileName startFmt worker_id workers
    ∧ (partPathExists = true →
        (buildParquetWorker worker_id source extractOk outputDir incremental
            workers max_failures outputExists startFmt recorded mtime hash
            partPathExists).outcome = .collision
        ∧ (∀ c, (buildParquetWorker worker_id source extractOk outputDir
            incremental workers max_failures outputExists startFmt recorded
            mtime hash partPathExists).outcome ≠ .committed c)
        ∧ (buildParquetWorker worker_id source extractOk outputDir incremental
            workers max_failures outputExists startFmt recorded mtime hash
            partPathExists).finalPathExists = true) := by
  constructor
  · unfold buildParquetWorker
    cases partPathExists
    · cases h : pipelineRun extractOk max_failures
          (workerSource incremental outputExists recorded mtime hash worker_id
            workers source) 0 0 0 <;>
        simp [h, partFileName, specPartFileName]
    · simp [partFileName, specPartFileName]
  · rintro rfl
    unfold buildParquetWorker
    simp

/-- Witness for C3: `worker_id = 3` of `workers = 16` at a fixed timestamp
yields the exact literal file name, and a pre-existing file at that path makes
the worker fail with a collision. -/
theorem worker_path_naming_and_collision_witness :
    (buildParquetWorker 3 ([] : List Nat) (fun _ => true) "out" false 16
        (some 0) false "20240101120000" (fun _ => none) (fun _ => (0 : Nat))
        (fun _ => 0) true).partPath
      = "out/part-20240101120000-0003-of-0016.parquet"
    ∧ (buildParquetWorker 3 ([] : List Nat) (fun _ => true) "out" false 16
        (some 0) false "20240101120000" (fun _ => none) (fun _ => (0 : Nat))
        (fun _ => 0) true).outcome = .collision := by
  have h := worker_path_naming_and_collision 3 ([] : List Nat) (fun _ => true)
    "out" false 16 (some 0) false "20240101120000" (fun _ => none)
    (fun _ => (0 : Nat)) (fun _ => 0) true
  exact ⟨h.1.trans (by decide), (h.2 rfl).1⟩

/-- C4: with `inplace = incremental || worker_id set`, when the output exists
and the run is not in place, `overwrite = true` recursively deletes the
existing output before any worker runs while `overwrite = false` fails with
the output-already-exists error before dispatch; an in-place run leaves the
existing output untouched. -/
theorem output_directory_disposition (workersArg : Option Int)
    (worker_id : Option Int) (incremental overwrite : Bool) (cpu : Nat)
    (w : Int) (hw : resolveWorkers workersArg cpu = .ok w)
    (hc : checkWorkerId worker_id w overwrite = .ok ()) :
    (incremental = false → worker_id = none →
      (overwrite = true →
        ∃ p, buildParquetPlan workersArg worker_id incremental overwrite true
            cpu = .ok p ∧ p.deletedOutput = true)
      ∧ (overwrite = false →
        buildParquetPlan workersArg worker_id incremental overwrite true cpu
          = .error .outputAlreadyExists))
    ∧ ((incremental || worker_id.isSome) = true →
      ∀ p, buildParquetPlan workersArg worker_id incremental overwrite true cpu
          = .ok p → p.deletedOutput = false) := by
  unfold buildParquetPlan
  simp only [hw, hc]
  constructor
  · rintro rfl rfl
    constructor
    · rintro rfl
      exact ⟨_, rfl, rfl⟩
    · rintro rfl
      rfl
  · intro hinp p hp
    simp [hinp] at hp
    subst hp
    rfl

/-- Witness for C4: with valid configuration (`workers = 2`, no `worker_id`,
`incremental = false`, `overwrite = false`), a pre-existing output directory
makes the build fail with the output-already-exists error. -/
theorem output_directory_disposition_witness :
    buildParquetPlan (some 2) none false false true 4
      = .error .outputAlreadyExists :=
  ((output_directory_disposition (some 2) none false false 4 2 rfl rfl).1
      rfl rfl).2 rfl

/-- C5: `workers = None` or `1` means serial execution as worker 0 of 1;
`workers = -1` resolves to the host cpu count; any other `workers ≤ 0` raises
the invalid-workers error; a given `worker_id` must satisfy
`0 ≤ worker_id < workers` or the invalid-worker-id error is raised; and
`worker_id` combined with `overwrite = true` raises the
overwrite-with-worker-id error — all returned by the plan before dispatch. -/
theorem build_config_validation (incremental overwrite outputExists : Bool)
    (cpu : Nat) :
    (∀ workersArg, workersArg = none ∨ workersArg = some 1 →
      ∃ p, buildParquetPlan workersArg none incremental overwrite false cpu
          = .ok p ∧ p.workers = 1 ∧ p.dispatch = .single 0)
    ∧ resolveWorkers (some (-1)) cpu = .ok (cpu : Int)
    ∧ (∀ w : Int, w ≤ 0 → w ≠ -1 → ∀ worker_id,
        buildParquetPlan (some w) worker_id incremental overwrite outputExists
          cpu = .error (.invalidWorkers w))
    ∧ (∀ workersArg (w wid : Int), resolveWorkers workersArg cpu = .ok w →
        ¬(0 ≤ wid ∧ wid < w) →
        buildParquetPlan workersArg (some wid) incremental overwrite
          outputExists cpu = .error (.invalidWorkerId wid))
    ∧ (∀ workersArg (w wid : Int), resolveWorkers workersArg cpu = .ok w →
        (0 ≤ wid ∧ wid < w) →
        buildParquetPlan workersArg (some wid) incremental true outputExists
          cpu = .error .overwriteWithWorkerId) := by
  refine ⟨?_, ?_, ?_, ?_, ?_⟩
  · rintro workersArg (rfl | rfl) <;> exact ⟨_, rfl, rfl, rfl⟩
  · rfl
  · intro w hw0 hwm1 worker_id
    have hres : resolveWorkers (some w) cpu = .error (.invalidWorkers w) := by
      simp only [resolveWorkers]
      rw [if_neg (by simpa using hwm1), if_pos hw0]
    simp [buildParquetPlan, hres]
  · intro workersArg w wid hw hwid
    simp [buildParquetPlan, hw, checkWorkerId, hwid]
  · intro workersArg w wid hw hwid
    simp [buildParquetPlan, hw, checkWorkerId, hwid.1, hwid.2]

/-- Witness for C5: `workers = 2, worker_id = 3` is rejected with the
invalid-worker-id error. -/
theorem build_config_validation_witness :
    buildParquetPlan (some 2) (some 3) false false false 4
      = .error (.invalidWorkerId 3) :=
  (build_config_validation false false false 4).2.2.2.1 (some 2) 2 3 rfl
    (by decide)

/-- C6: a parallel dispatch runs every worker id in `0..workers-1`, catches
each failing worker's error and logs that worker's id, and never propagates
an error to the caller; a single-worker dispatch surfaces the worker's error
directly. The orchestrator chooses parallel dispatch exactly for
`worker_id` unset with resolved `workers > 1`, and single dispatch whenever
`worker_id` is set. -/
theorem orchestrator_failure_isolation {ε : Type}
    (w : Nat) (f : Nat → Except ε RunCounts) (wid : Nat)
    (workersArg : Option Int) (incremental overwrite outputExists : Bool)
    (cpu : Nat) :
    (∃ l, runDispatch (.parallel w) f = .ok l ∧
        ∀ i, i ∈ l ↔ i < w ∧ (f i).toBool = false)
    ∧ (∀ e, f wid = .error e → runDispatch (.single wid) f = .error e)
    ∧ (∀ c, f wid = .ok c → runDispatch (.single wid) f = .ok [])
    ∧ (∀ (W : Int) p, 1 < W →
        buildParquetPlan (some W) none incremental overwrite outputExists cpu
          = .ok p → p.dispatch = .parallel W.toNat)
    ∧ (∀ (widArg : Int) p,
        buildParquetPlan workersArg (some widArg) incremental overwrite
          outputExists cpu = .ok p → p.dispatch = .single widArg.toNat) := by
  refine ⟨?_, ?_, ?_, ?_, ?_⟩
  · refine ⟨_, rfl, fun i => ?_⟩
    simp [List.mem_filter, List.mem_range, and_comm]
  · intro e he
    simp [runDispatch, he]
  · intro c hc
    simp [runDispatch, hc]
  · intro W p hW hp
    have hres : resolveWorkers (some W) cpu = .ok W := by
      simp only [resolveWorkers]
      rw [if_neg (by simp; omega), if_neg (by omega)]
    simp only [buildParquetPlan, hres, checkWorkerId] at hp
    split at hp
    · split at hp
      · rw [Except.ok.injEq] at hp
        subst hp
        simp [chooseDispatch, hW]
      · simp at hp
    · rw [Except.ok.injEq] at hp
      subst hp
      simp [chooseDispatch, hW]
  · intro widArg p hp
    cases hres : resolveWorkers workersArg cpu with
    | error e =>
      simp only [buildParquetPlan, hres] at hp
      exact Except.noConfusion hp
    | ok w =>
      simp only [buildParquetPlan, hres] at hp
      cases hchk : checkWorkerId (some widArg) w overwrite with
      | error e =>
        simp only [hchk] at hp
        exact Except.noConfusion hp
      | ok u =>
        simp only [hchk] at hp
        rw [if_neg (by simp)] at hp
        rw [Except.ok.injEq] at hp
        subst hp
        simp [chooseDispatch]

/-- Witness for C6: with two workers where worker 1 fails, the parallel
dispatch succeeds and logs exactly worker 1. -/
theorem orchestrator_failure_isolation_witness :
    ∃ l, runDispatch (.parallel 2)
        (fun i => if i = 1 then .error "boom" else .ok ⟨1, 1, 0⟩) = .ok l ∧
      ∀ i, i ∈ l ↔ i < 2 ∧
        ((fun i => if i = 1 then (.error "boom" : Except String RunCounts)
            else .ok ⟨1, 1, 0⟩) i).toBool = false :=
  (orchestrator_failure_isolation 2
      (fun i => if i = 1 then .error "boom" else .ok ⟨1, 1, 0⟩) 0 none false
      false false 1).1

/-- Witness for C7: an item with a stale recorded modification time is dropped
by the worker's incremental filter. -/
theorem worker_incremental_filtering_witness :
    (fileModIndexKeep (fun _ => some 5) (fun _ => (3 : Nat)) (0 : Nat) = true ↔
        (fun _ => (some 5 : Option Nat)) (0 : Nat) = none ∨
          ∃ t, (fun _ => (some 5 : Option Nat)) (0 : Nat) = some t ∧
            t < (fun _ => (3 : Nat)) (0 : Nat))
    ∧ ((0 : Nat) ∈ workerSource true true (fun _ => some 5) (fun _ => (3 : Nat))
          id 0 1 [0] ↔
        (0 : Nat) ∈ [0] ∧ ((true && true) = true →
            fileModIndexKeep (fun _ => some 5) (fun _ => (3 : Nat)) 0 = true)
          ∧ (1 < 1 → id 0 % 1 = 0)) :=
  worker_incremental_filtering true true (fun _ => some 5) (fun _ => (3 : Nat))
    id 0 1 [0] 0

/-- C8: `workers = -1` resolves to the host cpu count, a positive integer and
never `-1` itself, and every plan built from `workers = -1` uses the resolved
value as its worker count. -/
theorem all_cores_resolution (cpu : Nat) (hcpu : 0 < cpu)
    (worker_id : Option Int) (incremental overwrite outputExists : Bool) :
    resolveWorkers (some (-1)) cpu = .ok (cpu : Int)
    ∧ (1 : Int) ≤ (cpu : Int)
    ∧ (cpu : Int) ≠ -1
    ∧ (∀ p, buildParquetPlan (some (-1)) worker_id incremental overwrite
          outputExists cpu = .ok p → p.workers = cpu) := by
  refine ⟨rfl, by exact_mod_cast hcpu, by omega, ?_⟩
  intro p hp
  simp only [buildParquetPlan] at hp
  have hres : resolveWorkers (some (-1)) cpu = .ok (cpu : Int) := rfl
  rw [hres] at hp
  cases hchk : checkWorkerId worker_id (cpu : Int) overwrite with
  | error e =>
    simp only [hchk] at hp
    exact Except.noConfusion hp
  | ok u =>
    simp only [hchk] at hp
    split at hp
    · split at hp
      · rw [Except.ok.injEq] at hp
        subst hp
        simp
      · exact Except.noConfusion hp
    · rw [Except.ok.injEq] at hp
      subst hp
      simp

/-- Witness for C8 at `cpu = 4`. -/
theorem all_cores_resolution_witness :
    resolveWorkers (some (-1)) 4 = .ok 4 ∧ (1 : Int) ≤ 4 ∧ (4 : Int) ≠ -1 :=
  let h := all_cores_resolution 4 (by decide) none false false false
  ⟨h.1, h.2.1, h.2.2.1⟩

/-- C10: calling build with `worker_id` set but `workers` unset is not
rejected as such: `workers` defaults to 1, so `worker_id = 0` (without
`overwrite`) is accepted and dispatched synchronously as worker 0 of 1, whose
source resolution applies no hash partition filter; any `worker_id ≥ 1` with
`workers` unset is rejected as out of range. -/
theorem worker_id_defaults_workers_to_one {α : Type} (incremental : Bool)
    (outputExists : Bool) (cpu : Nat) (recorded : α → Option Nat)
    (mtime : α → Nat) (hash : α → Nat) :
    (∃ p, buildParquetPlan none (some 0) incremental false outputExists cpu
        = .ok p ∧ p.workers = 1 ∧ p.dispatch = .single 0)
    ∧ (∀ S : List α, ∀ incr outEx : Bool,
        workerSource incr outEx recorded mtime hash 0 1 S
          = if incr && outEx then S.filter (fileModIndexKeep recorded mtime)
            else S)
    ∧ (∀ wid : Int, 1 ≤ wid →
        buildParquetPlan none (some wid) incremental false outputExists cpu
          = .error (.invalidWorkerId wid)) := by
  refine ⟨?_, ?_, ?_⟩
  · refine ⟨{ workers := 1, dispatch := .single 0, deletedOutput := false },
      ?_, rfl, rfl⟩
    simp [buildParquetPlan, resolveWorkers, checkWorkerId, chooseDispatch]
  · intro S incr outEx
    simp [workerSource]
  · intro wid hwid
    have hv : ¬((0 : Int) ≤ wid ∧ wid < 1) := by omega
    simp [buildParquetPlan, resolveWorkers, checkWorkerId, hv]

/-- Witness for C10: `worker_id = 1` with `workers` unset is out of range. -/
theorem worker_id_defaults_workers_to_one_witness :
    buildParquetPlan none (some 1) false false false 1
      = .error (.invalidWorkerId 1) :=
  (worker_id_defaults_workers_to_one (α := Nat) false false 1 (fun _ => none)
      (fun _ => 0) (fun _ => 0)).2.2 1 (by decide)

end Elbow
